import Mathlib

/-!
Verification of the annotator driver script (`src/analysis/annotator.py`).

The script has two phases:
* `prepare` — ensures the output workspace exists (`os.makedirs` with
  `exist_ok=True`), removes the iteration subdirectory `0` (`shutil.rmtree`
  with `ignore_errors=True`) and writes the one-line tab-separated path
  manifest `paths.tsv`;
* `run_annotator` — calls `prepare`, assembles the external analyzer's
  argument vector and dispatches it with `subprocess.call`.

We embed the filesystem effects over an explicit filesystem state (paths as
lists of components), the command construction as a pure function of a run
configuration, and the whole script (module-level resolution of the jar
path and the repository root, then `run_annotator`) as a function of an
environment describing the outcome of each external operation.
-/

/-- Filesystem state: the set of existing directories (as component paths,
kept as a duplicate-free list) and the existing files with their contents. -/
@[ext]
structure FS where
  dirs : List (List String)
  files : List (List String × String)
  deriving DecidableEq, Repr

/-- Insert a directory path if it is not already present. -/
def insertD (ds : List (List String)) (p : List String) : List (List String) :=
  if p ∈ ds then ds else ds ++ [p]

/-- The nonempty ancestors of a path, shortest first, ending with the path
itself: exactly the directories `os.makedirs` ensures exist. -/
def ancs : List String → List (List String)
  | [] => []
  | a :: rest => [a] :: (ancs rest).map (fun p => a :: p)

/-- Embedding of `os.makedirs(w, exist_ok=True)`: create the directory and
every missing ancestor; an existing directory is not an error. -/
def makedirs (w : List String) (fs : FS) : FS :=
  { fs with dirs := (ancs w).foldl insertD fs.dirs }

/-- Embedding of `shutil.rmtree(z, ignore_errors=True)` (the successful
case): remove the directory `z` and everything below it. -/
def rmtree (z : List String) (fs : FS) : FS :=
  { dirs := fs.dirs.filter (fun d => !(z.isPrefixOf d))
    files := fs.files.filter (fun e => !(z.isPrefixOf e.1)) }

/-- Overwrite (or create) the file at path `p` with content `c`. -/
def setFile : List (List String × String) → List String → String →
    List (List String × String)
  | [], p, c => [(p, c)]
  | (q, d) :: rest, p, c =>
    if q = p then (p, c) :: rest else (q, d) :: setFile rest p c

/-- Embedding of `open(p, 'w')` followed by a single write: the file is
overwritten wholesale. -/
def writeF (p : List String) (c : String) (fs : FS) : FS :=
  { fs with files := setFile fs.files p c }

/-- Content of the file at path `p`, if it exists. -/
def getFile (fs : FS) (p : List String) : Option String :=
  go fs.files p
where
  go : List (List String × String) → List String → Option String
    | [], _ => none
    | (q, d) :: rest, p => if q = p then some d else go rest p

/-- Render a component path as the absolute path string used by the script
(e.g. `/tmp/ucr-tainting/opencms-opt`). -/
def pathStr (w : List String) : String :=
  "/" ++ String.intercalate "/" w

/-- The taint-report path: `'{}/taint.xml'.format(OUT_DIR)`. -/
def taintPath (d : String) : String := d ++ "/taint.xml"

/-- The scan-report path: `'{}/scanner.xml'.format(OUT_DIR)`. -/
def scanPath (d : String) : String := d ++ "/scanner.xml"

/-- The single line written to `paths.tsv`:
`"{}\t{}\n".format(taint, scanner)`. -/
def manifestLine (d : String) : String :=
  taintPath d ++ "\t" ++ scanPath d ++ "\n"

/-- Embedding of `prepare()` over a workspace path `w` (the script fixes
`w` to `OUT_DIR`): `os.makedirs(OUT_DIR, exist_ok=True)`, then
`shutil.rmtree(OUT_DIR + '/0', ignore_errors=True)`, then write the
manifest to `OUT_DIR + '/paths.tsv'`. -/
def prepare (w : List String) (fs : FS) : FS :=
  writeF (w ++ ["paths.tsv"]) (manifestLine (pathStr w))
    (rmtree (w ++ ["0"]) (makedirs w fs))

/-- The script's fixed output workspace `OUT_DIR =
'/tmp/ucr-tainting/opencms-opt'` as a component path. -/
def OUT_DIR_PATH : List String := ["tmp", "ucr-tainting", "opencms-opt"]

/-- The analyzer jar location: `"{}/.m2/repository/edu/ucr/cs/riple/annotator/annotator-core/{}/annotator-core-{}.jar".format(home, VERSION, VERSION)`. -/
def annotatorJar (home ver : String) : String :=
  home ++ "/.m2/repository/edu/ucr/cs/riple/annotator/annotator-core/" ++
    ver ++ "/annotator-core-" ++ ver ++ ".jar"

/-- A run configuration for the invocation builder.  The source fixes every
field to a constant; the optional fields correspond one-to-one to the
comment-toggled lines of `run_annotator` (`--depth`, `-rboserr`, `-dol`,
`--disable-parallel-processing`), whose flag spellings and positions are
taken verbatim from the source.  The source as committed corresponds to
`depth = some 1`, `outerLoopEnabled = false`, `parallelEnabled = true`,
`buildOutputVisible = false`. -/
structure RunConfig where
  repoRoot : String
  outDir : String
  buildCommand : String
  initializer : String
  qualifier : String
  contextName : String
  jar : String
  depth : Option Nat
  outerLoopEnabled : Bool
  parallelEnabled : Bool
  buildOutputVisible : Bool
  deriving DecidableEq, Repr

/-- The `-bc` payload: `'cd {} && ./gradlew compileJava'.format(REPO)`,
with the build step itself as a configuration field. -/
def bcToken (c : RunConfig) : String :=
  "cd " ++ c.repoRoot ++ " && " ++ c.buildCommand

/-- The `-cp` payload: `'{}/paths.tsv'.format(OUT_DIR)`. -/
def cpToken (c : RunConfig) : String :=
  c.outDir ++ "/paths.tsv"

/-- Embedding of the command assembly in `run_annotator`: the successive
`commands += [...]` lines, in source order.  Each optional segment follows
the corresponding (comment-toggled) line of the source. -/
def build_commands (c : RunConfig) : List String :=
  let commands : List String := []
  let commands := commands ++ ["java", "-jar", c.jar]
  let commands := commands ++ ["-d", c.outDir]
  let commands := commands ++ ["-bc", bcToken c]
  let commands := commands ++ ["-cp", cpToken c]
  let commands := commands ++ ["-i", c.initializer]
  let commands := commands ++ ["-n", c.qualifier]
  let commands := commands ++ ["-cn", c.contextName]
  let commands := commands ++
    (match c.depth with
     | none => []
     | some n => ["--depth", toString n])
  let commands := commands ++
    (if c.buildOutputVisible then ["-rboserr"] else [])
  let commands := commands ++
    (if c.outerLoopEnabled then [] else ["-dol"])
  let commands := commands ++
    (if c.parallelEnabled then [] else ["--disable-parallel-processing"])
  commands

/-- The configuration the committed source runs with: `--depth 1` and
`-dol` are active, `-rboserr` and `--disable-parallel-processing` are
commented out. -/
def sourceConfig (repo home : String) : RunConfig :=
  { repoRoot := repo
    outDir := pathStr OUT_DIR_PATH
    buildCommand := "./gradlew compileJava"
    initializer := "edu.ucr.Initializer"
    qualifier := "edu.ucr.cs.riple.taint.ucrtainting.qual.RUntainted"
    contextName := "UCRTaint"
    jar := annotatorJar home "1.3.8-SNAPSHOT"
    depth := some 1
    outerLoopEnabled := false
    parallelEnabled := true
    buildOutputVisible := false }

/-- Errors the script can raise: `Path.home()` unresolvable, `git
rev-parse --show-toplevel` failing (`check_output` raises), `os.makedirs`
failing, or the manifest write failing. -/
inductive Err where
  | homeNotFound
  | gitFailed
  | mkdirFailed
  | writeFailed
  deriving DecidableEq, Repr

/-- Externally visible actions of one run, in order of occurrence. -/
inductive Act where
  | mkdirA
  | rmA
  | writeA
  | spawnA
  deriving DecidableEq, Repr

/-- Environment describing the outcome of each external operation of one
run: whether `Path.home()` resolves, whether `git rev-parse` succeeds,
whether `os.makedirs` succeeds, whether the underlying removal in
`shutil.rmtree` succeeds, whether the manifest write succeeds, the
exit status `subprocess.call` would return, and — since `os.makedirs`
creates missing ancestors one at a time and can fail partway — how many
of the missing ancestor directories it had already created when it
failed (irrelevant when `mkdirOk` is true). -/
structure Env where
  homeDir : Option String
  gitTop : Option String
  mkdirOk : Bool
  rmOk : Bool
  writeOk : Bool
  callExit : Int
  mkdirCreated : Nat
  deriving DecidableEq, Repr

/-- Result of running the script: the actions performed in order, the
external tool's exit status (when it was spawned), the value
`run_annotator` returns to its caller (Python `None` is `none`), the
error that aborted the run (if any), and the resulting filesystem. -/
structure RunResult where
  actions : List Act
  exit : Option Int
  ret : Option Int
  err : Option Err
  fsOut : FS
  deriving DecidableEq, Repr

/-- Embedding of the whole script over workspace `w`: the module-level
statements resolve `ANNOTATOR_JAR` (via `Path.home()`) and then `REPO`
(via `subprocess.check_output`); any failure there aborts before anything
else runs.  Then `run_annotator()` calls `prepare()` — `os.makedirs`
(failure raises, possibly after having created some of the missing
ancestor directories), `shutil.rmtree(..., ignore_errors=True)` (failure
is swallowed and the run continues), the manifest write (failure raises) —
and finally dispatches `subprocess.call(commands)`, whose return value is
not returned by `run_annotator` (the call is its last statement, so the
function returns `None`). -/
def script (w : List String) (e : Env) (fs : FS) : RunResult :=
  match e.homeDir with
  | none => ⟨[], none, none, some Err.homeNotFound, fs⟩
  | some _ =>
    match e.gitTop with
    | none => ⟨[], none, none, some Err.gitFailed, fs⟩
    | some _ =>
      if e.mkdirOk then
        let fs1 := makedirs w fs
        let fs2 := if e.rmOk then rmtree (w ++ ["0"]) fs1 else fs1
        let acts := if e.rmOk then [Act.mkdirA, Act.rmA]
                    else [Act.mkdirA]
        if e.writeOk then
          ⟨acts ++ [Act.writeA, Act.spawnA], some e.callExit, none,
            none, writeF (w ++ ["paths.tsv"]) (manifestLine (pathStr w)) fs2⟩
        else
          ⟨acts, none, none, some Err.writeFailed, fs2⟩
      else
        ⟨[], none, none, some Err.mkdirFailed,
          { fs with dirs :=
              ((ancs w).take e.mkdirCreated).foldl insertD fs.dirs }⟩

/-! Helper lemmas about the filesystem model. -/

theorem isPrefixOf_self (z : List String) : z.isPrefixOf z = true := by
  induction z with
  | nil => rfl
  | cons a rest ih => simp [List.isPrefixOf, ih]

theorem length_le_of_isPrefixOf :
    ∀ z p : List String, z.isPrefixOf p = true → z.length ≤ p.length := by
  intro z
  induction z with
  | nil => intro p _; simp
  | cons a rest ih =>
    intro p hp
    cases p with
    | nil => simp [List.isPrefixOf] at hp
    | cons b q =>
      simp only [List.isPrefixOf, Bool.and_eq_true] at hp
      simpa using ih q hp.2

theorem isPrefixOf_snoc_snoc (w : List String) (a b : String)
    (h : (w ++ [a]).isPrefixOf (w ++ [b]) = true) : a = b := by
  induction w with
  | nil =>
    simp only [List.nil_append, List.isPrefixOf, Bool.and_eq_true,
      beq_iff_eq] at h
    exact h.1
  | cons c w' ih =>
    simp only [List.cons_append, List.isPrefixOf, Bool.and_eq_true,
      beq_iff_eq] at h
    exact ih h.2

theorem mem_ancs_length {p : List String} :
    ∀ w : List String, p ∈ ancs w → p.length ≤ w.length := by
  intro w
  induction w generalizing p with
  | nil => intro h; simp [ancs] at h
  | cons a rest ih =>
    intro h
    simp only [ancs, List.mem_cons, List.mem_map] at h
    rcases h with h | ⟨q, hq, rfl⟩
    · subst h; simp
    · simpa using Nat.succ_le_succ (ih hq)

theorem mem_foldl_insertD_iff (ps : List (List String)) :
    ∀ ds d, d ∈ ps.foldl insertD ds ↔ d ∈ ds ∨ d ∈ ps := by
  induction ps with
  | nil => intro ds d; simp
  | cons p rest ih =>
    intro ds d
    simp only [List.foldl_cons, ih, insertD]
    constructor
    · intro h
      rcases h with h | h
      · split at h
        · exact Or.inl h
        · simp only [List.mem_append, List.mem_singleton] at h
          rcases h with h | h
          · exact Or.inl h
          · exact Or.inr (by simp [h])
      · exact Or.inr (by simp [h])
    · intro h
      rcases h with h | h
      · left; split
        · exact h
        · simp [h]
      · simp only [List.mem_cons] at h
        rcases h with rfl | h
        · left; split
          · assumption
          · simp
        · exact Or.inr h

theorem foldl_insertD_of_all_mem :
    ∀ (ps : List (List String)) (ds : List (List String)),
      (∀ p ∈ ps, p ∈ ds) → ps.foldl insertD ds = ds := by
  intro ps
  induction ps with
  | nil => intro ds _; rfl
  | cons p rest ih =>
    intro ds h
    have hp : p ∈ ds := h p (by simp)
    simp only [List.foldl_cons, insertD, if_pos hp]
    exact ih ds (fun q hq => h q (by simp [hq]))

theorem getFile_setFile_self :
    ∀ (l : List (List String × String)) (p : List String) (c : String),
      getFile.go (setFile l p c) p = some c := by
  intro l
  induction l with
  | nil => intro p c; simp [setFile, getFile.go]
  | cons e rest ih =>
    intro p c
    obtain ⟨q, d⟩ := e
    by_cases h : q = p
    · simp [setFile, h, getFile.go]
    · simp [setFile, h, getFile.go, ih]

theorem getFile_setFile_ne :
    ∀ (l : List (List String × String)) (p r : List String) (c : String),
      r ≠ p → getFile.go (setFile l p c) r = getFile.go l r := by
  intro l
  induction l with
  | nil =>
    intro p r c hrp
    simp only [setFile, getFile.go]
    rw [if_neg (fun hh => hrp hh.symm)]
  | cons e rest ih =>
    intro p r c hrp
    obtain ⟨q, d⟩ := e
    by_cases h : q = p
    · simp only [setFile, if_pos h, getFile.go]
      rw [if_neg (fun hh => hrp hh.symm), if_neg (fun hh => hrp (hh.symm.trans h))]
    · simp only [setFile, if_neg h, getFile.go]
      by_cases hqr : q = r
      · rw [if_pos hqr, if_pos hqr]
      · rw [if_neg hqr, if_neg hqr, ih p r c hrp]

theorem setFile_setFile :
    ∀ (l : List (List String × String)) (p : List String) (c : String),
      setFile (setFile l p c) p c = setFile l p c := by
  intro l
  induction l with
  | nil => intro p c; simp [setFile]
  | cons e rest ih =>
    intro p c
    obtain ⟨q, d⟩ := e
    by_cases h : q = p
    · simp [setFile, h]
    · simp [setFile, h, ih]

theorem mem_setFile :
    ∀ (l : List (List String × String)) (p : List String) (c : String)
      (e : List String × String),
      e ∈ setFile l p c → e ∈ l ∨ e = (p, c) := by
  intro l
  induction l with
  | nil => intro p c e he; simp [setFile] at he; simp [he]
  | cons f rest ih =>
    intro p c e he
    obtain ⟨q, d⟩ := f
    by_cases h : q = p
    · simp only [setFile, if_pos h, List.mem_cons] at he
      rcases he with rfl | he
      · exact Or.inr rfl
      · exact Or.inl (by simp [he])
    · simp only [setFile, if_neg h, List.mem_cons] at he
      rcases he with rfl | he
      · exact Or.inl (by simp)
      · rcases ih p c e he with h' | h'
        · exact Or.inl (by simp [h'])
        · exact Or.inr h'

theorem getFile_filter
    (pred : List String × String → Bool) :
    ∀ (l : List (List String × String)) (r : List String),
      (∀ d, pred (r, d) = true) →
      getFile.go (l.filter pred) r = getFile.go l r := by
  intro l
  induction l with
  | nil => intro r _; rfl
  | cons e rest ih =>
    intro r hr
    obtain ⟨q, d⟩ := e
    by_cases hqr : q = r
    · subst hqr
      simp [List.filter_cons, hr d, getFile.go]
    · by_cases hp : pred (q, d) = true
      · simp [List.filter_cons, hp, getFile.go, hqr, ih r hr]
      · simp only [List.filter_cons, Bool.not_eq_true] at hp ⊢
        rw [hp]
        simp [getFile.go, hqr, ih r hr]

theorem not_isPrefixOf_zero_of_mem_ancs {w p : List String}
    (h : p ∈ ancs w) : (w ++ ["0"]).isPrefixOf p = false := by
  by_contra hc
  have h1 : (w ++ ["0"]).length ≤ p.length :=
    length_le_of_isPrefixOf _ _ (by simpa using hc)
  have h2 : p.length ≤ w.length := mem_ancs_length w h
  simp only [List.length_append, List.length_singleton] at h1
  omega

theorem not_isPrefixOf_zero_manifest (w : List String) :
    (w ++ ["0"]).isPrefixOf (w ++ ["paths.tsv"]) = false := by
  by_contra hc
  rw [Bool.not_eq_false] at hc
  have := isPrefixOf_snoc_snoc w "0" "paths.tsv" hc
  simp at this

theorem mem_dirs_prepare (w : List String) (fs : FS) (d : List String) :
    d ∈ (prepare w fs).dirs ↔
      (w ++ ["0"]).isPrefixOf d = false ∧ (d ∈ fs.dirs ∨ d ∈ ancs w) := by
  simp only [prepare, writeF, rmtree, makedirs, List.mem_filter,
    mem_foldl_insertD_iff, Bool.not_eq_true', and_comm]

theorem ancs_mem_dirs_prepare (w : List String) (fs : FS) :
    ∀ p ∈ ancs w, p ∈ (prepare w fs).dirs := by
  intro p hp
  exact (mem_dirs_prepare w fs p).mpr
    ⟨not_isPrefixOf_zero_of_mem_ancs hp, Or.inr hp⟩

theorem makedirs_prepare (w : List String) (fs : FS) :
    makedirs w (prepare w fs) = prepare w fs := by
  ext1
  · exact foldl_insertD_of_all_mem _ _ (ancs_mem_dirs_prepare w fs)
  · rfl

theorem rmtree_prepare (w : List String) (fs : FS) :
    rmtree (w ++ ["0"]) (prepare w fs) = prepare w fs := by
  ext1
  · apply List.filter_eq_self.mpr
    intro d hd
    have := ((mem_dirs_prepare w fs d).mp hd).1
    simp [this]
  · apply List.filter_eq_self.mpr
    intro e he
    simp only [prepare, writeF] at he
    rcases mem_setFile _ _ _ _ he with h | h
    · simp only [rmtree, List.mem_filter] at h
      exact h.2
    · subst h
      simp [not_isPrefixOf_zero_manifest w]

theorem writeF_prepare (w : List String) (fs : FS) :
    writeF (w ++ ["paths.tsv"]) (manifestLine (pathStr w)) (prepare w fs) =
      prepare w fs := by
  ext1
  · rfl
  · exact setFile_setFile _ _ _

theorem prepare_idem (w : List String) (fs : FS) :
    prepare w (prepare w fs) = prepare w fs := by
  conv_lhs => rw [prepare]
  rw [makedirs_prepare, rmtree_prepare, writeF_prepare]

theorem getFile_prepare_manifest (w : List String) (fs : FS) :
    getFile (prepare w fs) (w ++ ["paths.tsv"]) =
      some (manifestLine (pathStr w)) := by
  simp only [prepare, writeF, getFile]
  exact getFile_setFile_self _ _ _

theorem zero_not_mem_dirs_prepare (w : List String) (fs : FS) :
    (w ++ ["0"]) ∉ (prepare w fs).dirs := by
  intro h
  have := ((mem_dirs_prepare w fs _).mp h).1
  simp [isPrefixOf_self] at this

theorem getFile_filter_none
    (pred : List String × String → Bool) :
    ∀ (l : List (List String × String)) (r : List String),
      (∀ d, pred (r, d) = false) →
      getFile.go (l.filter pred) r = none := by
  intro l
  induction l with
  | nil => intro r _; rfl
  | cons e rest ih =>
    intro r hr
    obtain ⟨q, d⟩ := e
    by_cases hp : pred (q, d) = true
    · have hqr : q ≠ r := by
        intro hh
        rw [hh] at hp
        simp [hr d] at hp
      simp [List.filter_cons, hp, getFile.go, hqr, ih r hr]
    · simp only [Bool.not_eq_true] at hp
      simp [List.filter_cons, hp, ih r hr]

/-- C4: for every workspace path `W` passed to the Preparer, the manifest
file written is exactly the taint-report path, a tab, the scan-report
path, and a terminating newline; both paths begin with `W`; at workspace
`/tmp/run/opencms` the content is the expected concrete line. -/
theorem manifest_content_and_paths (w : List String) (fs : FS) :
    getFile (prepare w fs) (w ++ ["paths.tsv"]) =
      some (taintPath (pathStr w) ++ "\t" ++ scanPath (pathStr w) ++ "\n") ∧
    (∃ t, taintPath (pathStr w) = pathStr w ++ t) ∧
    (∃ t, scanPath (pathStr w) = pathStr w ++ t) ∧
    manifestLine (pathStr ["tmp", "run", "opencms"]) =
      "/tmp/run/opencms/taint.xml\t/tmp/run/opencms/scanner.xml\n" := by
  exact ⟨getFile_prepare_manifest w fs, ⟨"/taint.xml", rfl⟩,
    ⟨"/scanner.xml", rfl⟩, rfl⟩

/-- C5: the Workspace Preparer is idempotent — running `prepare` twice on
any filesystem state equals running it once; the manifest content is the
same (hence byte-identical) after each run, and no `0` subdirectory of
the workspace exists after either run. -/
theorem prepare_idempotent (w : List String) (fs : FS) :
    prepare w (prepare w fs) = prepare w fs ∧
    getFile (prepare w fs) (w ++ ["paths.tsv"]) =
      some (manifestLine (pathStr w)) ∧
    getFile (prepare w (prepare w fs)) (w ++ ["paths.tsv"]) =
      some (manifestLine (pathStr w)) ∧
    (w ++ ["0"]) ∉ (prepare w fs).dirs ∧
    (w ++ ["0"]) ∉ (prepare w (prepare w fs)).dirs := by
  refine ⟨prepare_idem w fs, getFile_prepare_manifest w fs, ?_,
    zero_not_mem_dirs_prepare w fs, ?_⟩
  · rw [prepare_idem]
    exact getFile_prepare_manifest w fs
  · rw [prepare_idem]
    exact zero_not_mem_dirs_prepare w fs

/-- C10 counterexample: on an empty filesystem, preparing the workspace
`/tmp/run/opencms` creates the directory `/tmp`, which is not inside the
workspace — so the Preparer does touch paths outside the workspace,
refuting the claim that nothing outside the workspace is touched. -/
theorem prepare_frame_counterexample :
    ["tmp"] ∉ (FS.mk [] []).dirs ∧
    ["tmp"] ∈ (prepare ["tmp", "run", "opencms"] (FS.mk [] [])).dirs ∧
    (["tmp", "run", "opencms"]).isPrefixOf ["tmp"] = false := by
  decide

/-- C10 amended: the Preparer modifies only the `0` subtree of the
workspace (removed), the manifest file (written), and the workspace
directory together with its missing ancestors (created): any directory
not under the `0` subtree is present afterwards iff it was present before
or is an ancestor (or the workspace itself); any file other than the
manifest and not under the `0` subtree keeps its exact content; and every
path under the `0` subtree is gone. -/
theorem prepare_frame (w : List String) (fs : FS) (d p : List String)
    (hd : (w ++ ["0"]).isPrefixOf d = false)
    (hp : (w ++ ["0"]).isPrefixOf p = false)
    (hpm : p ≠ w ++ ["paths.tsv"]) :
    (d ∈ (prepare w fs).dirs ↔ d ∈ fs.dirs ∨ d ∈ ancs w) ∧
    getFile (prepare w fs) p = getFile fs p ∧
    (∀ q, (w ++ ["0"]).isPrefixOf q = true → q ∉ (prepare w fs).dirs) := by
  refine ⟨?_, ?_, ?_⟩
  · rw [mem_dirs_prepare]
    simp [hd]
  · show getFile.go (setFile _ _ _) p = _
    rw [getFile_setFile_ne _ _ _ _ hpm]
    exact getFile_filter _ _ p (fun c => by simp [hp])
  · intro q hq hmem
    have := ((mem_dirs_prepare w fs q).mp hmem).1
    rw [hq] at this
    simp at this

/-- Witness for the amended C10 frame theorem at a concrete filesystem
holding an unrelated directory and file. -/
theorem prepare_frame_witness :
    ((["a", "0"]).isPrefixOf ["b"] = false ∧
     (["a", "0"]).isPrefixOf ["b", "f.txt"] = false ∧
     ["b", "f.txt"] ≠ ["a", "paths.tsv"]) ∧
    ((["b"] ∈ (prepare ["a"] (FS.mk [["b"]] [(["b", "f.txt"], "x")])).dirs ↔
        ["b"] ∈ (FS.mk [["b"]] [(["b", "f.txt"], "x")]).dirs ∨
          ["b"] ∈ ancs ["a"]) ∧
     getFile (prepare ["a"] (FS.mk [["b"]] [(["b", "f.txt"], "x")]))
         ["b", "f.txt"] =
       getFile (FS.mk [["b"]] [(["b", "f.txt"], "x")]) ["b", "f.txt"] ∧
     (∀ q, (["a", "0"]).isPrefixOf q = true →
        q ∉ (prepare ["a"] (FS.mk [["b"]] [(["b", "f.txt"], "x")])).dirs)) :=
  ⟨⟨by decide, by decide, by decide⟩,
    prepare_frame ["a"] (FS.mk [["b"]] [(["b", "f.txt"], "x")]) ["b"]
      ["b", "f.txt"] (by decide) (by decide) (by decide)⟩

theorem build_commands_flat (c : RunConfig) :
    build_commands c =
      ["java", "-jar", c.jar, "-d", c.outDir, "-bc", bcToken c,
       "-cp", cpToken c, "-i", c.initializer, "-n", c.qualifier,
       "-cn", c.contextName] ++
      (match c.depth with
       | none => []
       | some n => ["--depth", toString n]) ++
      (if c.buildOutputVisible then ["-rboserr"] else []) ++
      (if c.outerLoopEnabled then [] else ["-dol"]) ++
      (if c.parallelEnabled then []
       else ["--disable-parallel-processing"]) := rfl

/-- C6: the built command lists its tokens in the fixed order — launch
prefix `java -jar <jar>`, then `-d`, `-bc`, `-cp`, `-i`, `-n`, `-cn`
flag/value pairs, then the optional segments — and a second build from an
equal configuration yields the identical token sequence. -/
theorem build_commands_order (c : RunConfig) :
    build_commands c =
      ["java", "-jar", c.jar, "-d", c.outDir, "-bc", bcToken c,
       "-cp", cpToken c, "-i", c.initializer, "-n", c.qualifier,
       "-cn", c.contextName] ++
      (match c.depth with
       | none => []
       | some n => ["--depth", toString n]) ++
      (if c.buildOutputVisible then ["-rboserr"] else []) ++
      (if c.outerLoopEnabled then [] else ["-dol"]) ++
      (if c.parallelEnabled then []
       else ["--disable-parallel-processing"]) ∧
    ∀ c₂ : RunConfig, c = c₂ → build_commands c = build_commands c₂ := by
  constructor
  · rfl
  · intro c₂ h
    rw [h]

/-- Witness for the C6 ordering theorem at the committed source
configuration. -/
theorem build_commands_order_witness :
    build_commands (sourceConfig "/repo" "/home/u") =
      ["java", "-jar", sourceConfig "/repo" "/home/u" |>.jar, "-d",
       sourceConfig "/repo" "/home/u" |>.outDir, "-bc",
       bcToken (sourceConfig "/repo" "/home/u"), "-cp",
       cpToken (sourceConfig "/repo" "/home/u"), "-i",
       sourceConfig "/repo" "/home/u" |>.initializer, "-n",
       sourceConfig "/repo" "/home/u" |>.qualifier, "-cn",
       sourceConfig "/repo" "/home/u" |>.contextName] ++
      (match sourceConfig "/repo" "/home/u" |>.depth with
       | none => []
       | some n => ["--depth", toString n]) ++
      (if sourceConfig "/repo" "/home/u" |>.buildOutputVisible
       then ["-rboserr"] else []) ++
      (if sourceConfig "/repo" "/home/u" |>.outerLoopEnabled
       then [] else ["-dol"]) ++
      (if sourceConfig "/repo" "/home/u" |>.parallelEnabled then []
       else ["--disable-parallel-processing"]) ∧
    ((sourceConfig "/repo" "/home/u" = sourceConfig "/repo" "/home/u") ∧
      build_commands (sourceConfig "/repo" "/home/u") =
        build_commands (sourceConfig "/repo" "/home/u")) :=
  ⟨(build_commands_order (sourceConfig "/repo" "/home/u")).1,
    rfl,
    (build_commands_order (sourceConfig "/repo" "/home/u")).2
      (sourceConfig "/repo" "/home/u") rfl⟩

/-- C2: with iteration depth unset the command contains no `--depth`
token; with depth 1 it contains exactly one `--depth`, and that
occurrence is immediately followed by the token `1` (hypotheses: none of
the payload strings collide with the `--depth` flag token). -/
theorem depth_flag_emission (c : RunConfig)
    (hpay : "--depth" ∉ [c.jar, c.outDir, bcToken c, cpToken c,
      c.initializer, c.qualifier, c.contextName]) :
    (c.depth = none → List.count "--depth" (build_commands c) = 0) ∧
    (c.depth = some 1 →
      List.count "--depth" (build_commands c) = 1 ∧
      ∃ l r, build_commands c = l ++ ["--depth", "1"] ++ r ∧
        List.count "--depth" l = 0 ∧ List.count "--depth" r = 0) := by
  simp only [List.mem_cons, List.not_mem_nil, or_false, not_or] at hpay
  obtain ⟨h1, h2, h3, h4, h5, h6, h7⟩ := hpay
  constructor
  · intro h0
    rw [List.count_eq_zero]
    cases hb1 : c.buildOutputVisible <;> cases hb2 : c.outerLoopEnabled <;>
      cases hb3 : c.parallelEnabled <;>
      simp [build_commands, h0, hb1, hb2, hb3, h1, h2, h3, h4, h5, h6, h7]
  · intro h0
    have hsplit : build_commands c =
        ["java", "-jar", c.jar, "-d", c.outDir, "-bc", bcToken c,
         "-cp", cpToken c, "-i", c.initializer, "-n", c.qualifier,
         "-cn", c.contextName] ++ ["--depth", "1"] ++
        ((if c.buildOutputVisible then ["-rboserr"] else []) ++
         (if c.outerLoopEnabled then [] else ["-dol"]) ++
         (if c.parallelEnabled then []
          else ["--disable-parallel-processing"])) := by
      rw [build_commands_flat c, h0]
      simp only [List.append_assoc, List.cons_append, List.nil_append]
      rfl
    have hleft : List.count "--depth"
        ["java", "-jar", c.jar, "-d", c.outDir, "-bc", bcToken c,
         "-cp", cpToken c, "-i", c.initializer, "-n", c.qualifier,
         "-cn", c.contextName] = 0 := by
      rw [List.count_eq_zero]
      simp [h1, h2, h3, h4, h5, h6, h7]
    have hright : List.count "--depth"
        ((if c.buildOutputVisible then ["-rboserr"] else []) ++
         (if c.outerLoopEnabled then [] else ["-dol"]) ++
         (if c.parallelEnabled then []
          else ["--disable-parallel-processing"])) = 0 := by
      rw [List.count_eq_zero]
      cases hb1 : c.buildOutputVisible <;> cases hb2 : c.outerLoopEnabled <;>
        cases hb3 : c.parallelEnabled <;> simp [hb1, hb2, hb3]
    refine ⟨?_, _, _, hsplit, hleft, hright⟩
    rw [hsplit, List.count_append, List.count_append, hleft, hright]
    decide

/-- Witness for the C2 depth-flag theorem at the committed source
configuration (which sets depth 1). -/
theorem depth_flag_emission_witness :
    ("--depth" ∉ [sourceConfig "/repo" "/home/u" |>.jar,
      sourceConfig "/repo" "/home/u" |>.outDir,
      bcToken (sourceConfig "/repo" "/home/u"),
      cpToken (sourceConfig "/repo" "/home/u"),
      sourceConfig "/repo" "/home/u" |>.initializer,
      sourceConfig "/repo" "/home/u" |>.qualifier,
      sourceConfig "/repo" "/home/u" |>.contextName]) ∧
    (((sourceConfig "/repo" "/home/u" |>.depth) = none →
      List.count "--depth" (build_commands (sourceConfig "/repo" "/home/u")) =
        0) ∧
     ((sourceConfig "/repo" "/home/u" |>.depth) = some 1 →
      List.count "--depth" (build_commands (sourceConfig "/repo" "/home/u")) =
        1 ∧
      ∃ l r, build_commands (sourceConfig "/repo" "/home/u") =
          l ++ ["--depth", "1"] ++ r ∧
        List.count "--depth" l = 0 ∧ List.count "--depth" r = 0)) :=
  ⟨by decide, depth_flag_emission (sourceConfig "/repo" "/home/u") (by decide)⟩

/-- C3: the command contains the `-dol` outer-loop-disable flag iff the
outer loop is disabled in the configuration, and the
`--disable-parallel-processing` flag iff parallel processing is disabled
(hypotheses: no payload string and no depth value collides with either
flag token). -/
theorem disable_flags_emission (c : RunConfig)
    (hdol : "-dol" ∉ [c.jar, c.outDir, bcToken c, cpToken c,
      c.initializer, c.qualifier, c.contextName])
    (hpar : "--disable-parallel-processing" ∉ [c.jar, c.outDir, bcToken c,
      cpToken c, c.initializer, c.qualifier, c.contextName])
    (hdoln : ∀ n : Nat, c.depth = some n → "-dol" ≠ toString n)
    (hparn : ∀ n : Nat, c.depth = some n →
      "--disable-parallel-processing" ≠ toString n) :
    ("-dol" ∈ build_commands c ↔ c.outerLoopEnabled = false) ∧
    ("--disable-parallel-processing" ∈ build_commands c ↔
      c.parallelEnabled = false) := by
  simp only [List.mem_cons, List.not_mem_nil, or_false, not_or]
    at hdol hpar
  obtain ⟨a1, a2, a3, a4, a5, a6, a7⟩ := hdol
  obtain ⟨b1, b2, b3, b4, b5, b6, b7⟩ := hpar
  cases hd : c.depth with
  | none =>
    cases hb1 : c.buildOutputVisible <;> cases hb2 : c.outerLoopEnabled <;>
      cases hb3 : c.parallelEnabled <;>
      simp [build_commands, hd, hb1, hb2, hb3,
        a1, a2, a3, a4, a5, a6, a7, b1, b2, b3, b4, b5, b6, b7]
  | some n =>
    have hn1 := hdoln n hd
    have hn2 := hparn n hd
    cases hb1 : c.buildOutputVisible <;> cases hb2 : c.outerLoopEnabled <;>
      cases hb3 : c.parallelEnabled <;>
      simp [build_commands, hd, hb1, hb2, hb3, hn1, hn2,
        a1, a2, a3, a4, a5, a6, a7, b1, b2, b3, b4, b5, b6, b7]

/-- Witness for the C3 disable-flag theorem at the committed source
configuration (outer loop disabled, parallel processing enabled): `-dol`
appears and `--disable-parallel-processing` does not. -/
theorem disable_flags_emission_witness :
    ("-dol" ∉ [sourceConfig "/repo" "/home/u" |>.jar,
      sourceConfig "/repo" "/home/u" |>.outDir,
      bcToken (sourceConfig "/repo" "/home/u"),
      cpToken (sourceConfig "/repo" "/home/u"),
      sourceConfig "/repo" "/home/u" |>.initializer,
      sourceConfig "/repo" "/home/u" |>.qualifier,
      sourceConfig "/repo" "/home/u" |>.contextName]) ∧
    ("-dol" ∈ build_commands (sourceConfig "/repo" "/home/u") ↔
      (sourceConfig "/repo" "/home/u" |>.outerLoopEnabled) = false) ∧
    ("--disable-parallel-processing" ∈
        build_commands (sourceConfig "/repo" "/home/u") ↔
      (sourceConfig "/repo" "/home/u" |>.parallelEnabled) = false) :=
  ⟨by decide,
    disable_flags_emission (sourceConfig "/repo" "/home/u") (by decide)
      (by decide)
      (by intro n h; cases h; decide)
      (by intro n h; cases h; decide)⟩

/-- C1 counterexample: on a fully successful run whose external tool
exits with status 1, `run_annotator` returns Python `None` (the
`subprocess.call` result is its last statement and is not returned), so
the value returned to the caller is not the exit status. -/
theorem exit_status_counterexample :
    (script OUT_DIR_PATH ⟨some "/home/u", some "/repo", true, true, true, 1, 0⟩
        (FS.mk [] [])).exit = some 1 ∧
    (script OUT_DIR_PATH ⟨some "/home/u", some "/repo", true, true, true, 1, 0⟩
        (FS.mk [] [])).ret = none ∧
    (script OUT_DIR_PATH ⟨some "/home/u", some "/repo", true, true, true, 1, 0⟩
        (FS.mk [] [])).ret ≠
      (script OUT_DIR_PATH ⟨some "/home/u", some "/repo", true, true, true, 1, 0⟩
        (FS.mk [] [])).exit := by
  decide

/-- C1 amended: on every successful run the external analyzer is
dispatched as a single synchronous process call and its exit status is
awaited, but the run operation returns `None` to its caller — the exit
status is discarded, not surfaced. -/
theorem exit_status_amended (w : List String) (e : Env) (fs : FS)
    (hh : e.homeDir.isSome = true) (hg : e.gitTop.isSome = true)
    (hm : e.mkdirOk = true) (hw : e.writeOk = true) :
    (script w e fs).exit = some e.callExit ∧
    (script w e fs).ret = none ∧
    (script w e fs).err = none := by
  rcases e with ⟨ho, gt, mk, rm, wr, ex⟩
  simp only at hh hg hm hw
  cases ho with
  | none => simp at hh
  | some h =>
    cases gt with
    | none => simp at hg
    | some g =>
      subst hm
      subst hw
      cases rm <;> simp [script]

/-- Witness for the amended C1 theorem at a concrete environment whose
external call exits with status 7. -/
theorem exit_status_amended_witness :
    ((⟨some "/home/u", some "/repo", true, true, true, 7, 0⟩ : Env).homeDir.isSome
        = true ∧
     (⟨some "/home/u", some "/repo", true, true, true, 7, 0⟩ : Env).gitTop.isSome
        = true) ∧
    ((script OUT_DIR_PATH ⟨some "/home/u", some "/repo", true, true, true, 7, 0⟩
        (FS.mk [] [])).exit = some
          (⟨some "/home/u", some "/repo", true, true, true, 7, 0⟩ : Env).callExit ∧
     (script OUT_DIR_PATH ⟨some "/home/u", some "/repo", true, true, true, 7, 0⟩
        (FS.mk [] [])).ret = none ∧
     (script OUT_DIR_PATH ⟨some "/home/u", some "/repo", true, true, true, 7, 0⟩
        (FS.mk [] [])).err = none) :=
  ⟨⟨by decide, by decide⟩,
    exit_status_amended OUT_DIR_PATH
      ⟨some "/home/u", some "/repo", true, true, true, 7, 0⟩ (FS.mk [] [])
      (by decide) (by decide) (by decide) (by decide)⟩

/-- C7 counterexample: a failure of the removal of the `0` subdirectory
is not fatal — `shutil.rmtree` is called with `ignore_errors=True`, so
the run reports no error and still spawns the external process. -/
theorem removal_failure_counterexample :
    (script OUT_DIR_PATH ⟨some "/home/u", some "/repo", true, false, true, 0, 0⟩
        (FS.mk [] [])).err = none ∧
    Act.spawnA ∈ (script OUT_DIR_PATH
        ⟨some "/home/u", some "/repo", true, false, true, 0, 0⟩
        (FS.mk [] [])).actions := by
  decide

/-- C7 amended: a failure of directory creation is fatal — the error
propagates and the run aborts before any external process is spawned,
with no retry, and no file (in particular no manifest) is written, though
`os.makedirs` may already have created some missing ancestor directories
before failing — while a failure of the removal of the `0` subdirectory
is silently ignored (`ignore_errors=True`) and the run proceeds to the
external invocation. -/
theorem workspace_failure_handling (w : List String) (e : Env) (fs : FS)
    (hh : e.homeDir.isSome = true) (hg : e.gitTop.isSome = true) :
    (e.mkdirOk = false →
      (script w e fs).err = some Err.mkdirFailed ∧
      (script w e fs).actions = [] ∧
      Act.spawnA ∉ (script w e fs).actions ∧
      (script w e fs).fsOut.files = fs.files) ∧
    (e.mkdirOk = true → e.writeOk = true →
      (script w e fs).err = none ∧
      Act.spawnA ∈ (script w e fs).actions) := by
  rcases e with ⟨ho, gt, mk, rm, wr, ex⟩
  simp only at hh hg
  cases ho with
  | none => simp at hh
  | some h =>
    cases gt with
    | none => simp at hg
    | some g =>
      constructor
      · intro hmk
        simp only at hmk
        subst hmk
        simp [script]
      · intro hmk hwr
        simp only at hmk hwr
        subst hmk
        subst hwr
        cases rm <;> simp [script]

/-- Witness for the amended C7 theorem at a concrete environment whose
directory creation fails. -/
theorem workspace_failure_handling_witness :
    ((⟨some "/home/u", some "/repo", false, true, true, 0, 0⟩ : Env).homeDir.isSome
        = true ∧
     (⟨some "/home/u", some "/repo", false, true, true, 0, 0⟩ : Env).gitTop.isSome
        = true) ∧
    (((⟨some "/home/u", some "/repo", false, true, true, 0, 0⟩ : Env).mkdirOk
        = false →
      (script OUT_DIR_PATH ⟨some "/home/u", some "/repo", false, true, true, 0, 0⟩
          (FS.mk [] [])).err = some Err.mkdirFailed ∧
      (script OUT_DIR_PATH ⟨some "/home/u", some "/repo", false, true, true, 0, 0⟩
          (FS.mk [] [])).actions = [] ∧
      Act.spawnA ∉ (script OUT_DIR_PATH
          ⟨some "/home/u", some "/repo", false, true, true, 0, 0⟩
          (FS.mk [] [])).actions ∧
      (script OUT_DIR_PATH ⟨some "/home/u", some "/repo", false, true, true, 0, 0⟩
          (FS.mk [] [])).fsOut.files = (FS.mk [] [] : FS).files) ∧
     ((⟨some "/home/u", some "/repo", false, true, true, 0, 0⟩ : Env).mkdirOk
        = true →
      (⟨some "/home/u", some "/repo", false, true, true, 0, 0⟩ : Env).writeOk
        = true →
      (script OUT_DIR_PATH ⟨some "/home/u", some "/repo", false, true, true, 0, 0⟩
          (FS.mk [] [])).err = none ∧
      Act.spawnA ∈ (script OUT_DIR_PATH
          ⟨some "/home/u", some "/repo", false, true, true, 0, 0⟩
          (FS.mk [] [])).actions)) :=
  ⟨⟨by decide, by decide⟩,
    workspace_failure_handling OUT_DIR_PATH
      ⟨some "/home/u", some "/repo", false, true, true, 0, 0⟩ (FS.mk [] [])
      (by decide) (by decide)⟩

/-- C8: if the repository root cannot be resolved (`git rev-parse`
raising in `check_output`) or the analyzer jar path cannot be resolved
(`Path.home()` raising), the module-level statements abort the run
before any filesystem mutation: no action is performed, the filesystem
is untouched, and no process is spawned. -/
theorem resolution_failure_aborts (w : List String) (e : Env) (fs : FS)
    (h : e.homeDir = none ∨ e.gitTop = none) :
    ((script w e fs).err = some Err.homeNotFound ∨
     (script w e fs).err = some Err.gitFailed) ∧
    (script w e fs).actions = [] ∧
    Act.spawnA ∉ (script w e fs).actions ∧
    (script w e fs).fsOut = fs := by
  rcases e with ⟨ho, gt, mk, rm, wr, ex⟩
  simp only at h
  cases ho with
  | none => simp [script]
  | some hv =>
    cases gt with
    | none => simp [script]
    | some gv => simp at h

/-- Witness for the C8 resolution-failure theorem at an environment where
`git rev-parse` fails. -/
theorem resolution_failure_aborts_witness :
    ((⟨some "/home/u", none, true, true, true, 0, 0⟩ : Env).homeDir = none ∨
     (⟨some "/home/u", none, true, true, true, 0, 0⟩ : Env).gitTop = none) ∧
    (((script OUT_DIR_PATH ⟨some "/home/u", none, true, true, true, 0, 0⟩
          (FS.mk [["etc"]] [])).err = some Err.homeNotFound ∨
      (script OUT_DIR_PATH ⟨some "/home/u", none, true, true, true, 0, 0⟩
          (FS.mk [["etc"]] [])).err = some Err.gitFailed) ∧
     (script OUT_DIR_PATH ⟨some "/home/u", none, true, true, true, 0, 0⟩
        (FS.mk [["etc"]] [])).actions = [] ∧
     Act.spawnA ∉ (script OUT_DIR_PATH
        ⟨some "/home/u", none, true, true, true, 0, 0⟩
        (FS.mk [["etc"]] [])).actions ∧
     (script OUT_DIR_PATH ⟨some "/home/u", none, true, true, true, 0, 0⟩
        (FS.mk [["etc"]] [])).fsOut = FS.mk [["etc"]] []) :=
  ⟨Or.inr (by decide),
    resolution_failure_aborts OUT_DIR_PATH
      ⟨some "/home/u", none, true, true, true, 0, 0⟩ (FS.mk [["etc"]] [])
      (Or.inr (by decide))⟩

/-- C9: on a successful run the Preparer's actions (directory creation,
`0` removal, manifest write) all occur, in that order, before the single
process spawn; the resulting filesystem is exactly the prepared one, so
the `0` subdirectory of the workspace — pre-existing or not — is absent
once the external invocation is reached. -/
theorem preparer_before_invocation (w : List String) (e : Env) (fs : FS)
    (hh : e.homeDir.isSome = true) (hg : e.gitTop.isSome = true)
    (hm : e.mkdirOk = true) (hr : e.rmOk = true) (hw : e.writeOk = true) :
    (script w e fs).actions =
      [Act.mkdirA, Act.rmA, Act.writeA, Act.spawnA] ∧
    (script w e fs).fsOut = prepare w fs ∧
    (w ++ ["0"]) ∉ (script w e fs).fsOut.dirs := by
  rcases e with ⟨ho, gt, mk, rm, wr, ex⟩
  simp only at hh hg hm hr hw
  cases ho with
  | none => simp at hh
  | some hv =>
    cases gt with
    | none => simp at hg
    | some gv =>
      subst hm
      subst hr
      subst hw
      refine ⟨by simp [script], rfl, ?_⟩
      show (w ++ ["0"]) ∉ (prepare w fs).dirs
      exact zero_not_mem_dirs_prepare w fs

/-- Witness for the C9 theorem: workspace `/tmp/run/opencms` with a
pre-existing `0` subdirectory; after the run the subdirectory is gone
and the spawn happened. -/
theorem preparer_before_invocation_witness :
    ((⟨some "/home/u", some "/repo", true, true, true, 0, 0⟩ : Env).homeDir.isSome
        = true ∧
     (⟨some "/home/u", some "/repo", true, true, true, 0, 0⟩ : Env).gitTop.isSome
        = true) ∧
    ((script ["tmp", "run", "opencms"]
        ⟨some "/home/u", some "/repo", true, true, true, 0, 0⟩
        (FS.mk [["tmp", "run", "opencms", "0"]] [])).actions =
      [Act.mkdirA, Act.rmA, Act.writeA, Act.spawnA] ∧
     (script ["tmp", "run", "opencms"]
        ⟨some "/home/u", some "/repo", true, true, true, 0, 0⟩
        (FS.mk [["tmp", "run", "opencms", "0"]] [])).fsOut =
      prepare ["tmp", "run", "opencms"]
        (FS.mk [["tmp", "run", "opencms", "0"]] []) ∧
     (["tmp", "run", "opencms"] ++ ["0"]) ∉
      (script ["tmp", "run", "opencms"]
        ⟨some "/home/u", some "/repo", true, true, true, 0, 0⟩
        (FS.mk [["tmp", "run", "opencms", "0"]] [])).fsOut.dirs) :=
  ⟨⟨by decide, by decide⟩,
    preparer_before_invocation ["tmp", "run", "opencms"]
      ⟨some "/home/u", some "/repo", true, true, true, 0, 0⟩
      (FS.mk [["tmp", "run", "opencms", "0"]] [])
      (by decide) (by decide) (by decide) (by decide) (by decide)⟩
